import Mathlib

/-!
Verification of the slash-command palette core of this repository:
trigger detection (`useCommandDetector`), keyboard selection handling
(`CommandPalette.handleKeyPress`), candidate filtering (the `AgentInput`
detection effect), and command dispatch (`useCommandExecutor.executeCommand`
and `sessionRPC` from the design document).

JavaScript strings are modelled as lists of characters, JavaScript numbers
appearing as list indices are modelled as integers together with an explicit
NaN value (produced by `%` with divisor 0), and thrown JavaScript exceptions
are modelled with `Except`.
-/

namespace MyHappy

/-- A JavaScript string, modelled as its sequence of characters. -/
abbrev JStr := List Char

/-- Build a `JStr` from a Lean string literal. -/
def js (s : String) : JStr := s.data

/-- The characters removed by JavaScript `String.prototype.trim`
(ASCII whitespace, the common line terminators, and NBSP). -/
def isJsWs (c : Char) : Bool :=
  c == ' ' || c == '\t' || c == '\n' || c == '\r' || c == '\x0b' ||
  c == '\x0c' || c == '\u00A0'

/-- Removes leading JS whitespace. -/
def dropLeadingWs (l : JStr) : JStr := l.dropWhile isJsWs

/-- Removes trailing JS whitespace. -/
def dropTrailingWs : JStr → JStr
  | [] => []
  | c :: cs =>
    match dropTrailingWs cs with
    | [] => if isJsWs c then [] else [c]
    | r => c :: r

/-- JavaScript `text.trim()`: strips leading and trailing whitespace,
leaving internal whitespace untouched. -/
def jsTrim (l : JStr) : JStr := dropTrailingWs (dropLeadingWs l)

/-- JavaScript `l.startsWith(p)`. -/
def jsStartsWith (l p : JStr) : Bool := p.isPrefixOf l

/-! ## sources/hooks/useCommandDetector.ts -/

/-- Result shape of the `useCommandDetector` hook.  The `clear` callback of
the source ignores its (empty) argument list and returns a string. -/
structure UseCommandDetectorResult where
  isActive : Bool
  clear : Unit → JStr

/-- `useCommandDetector(text, trigger)`:
`const trimmedText = text.trim(); const isActive = trimmedText === trigger;`
and `clear` returns the empty string. -/
def useCommandDetector (text trigger : JStr) : UseCommandDetectorResult :=
  let trimmedText := jsTrim text
  { isActive := trimmedText == trigger
    clear := fun _ => [] }

/-! ## sources/components/CommandPalette.tsx — handleKeyPress

`selectedIndex` and the values passed to `onSelect` are JavaScript numbers;
the arithmetic the handler performs on them (`- 1`, `+ 1`, `% items.length`,
`> 0`) is modelled on integers extended with NaN, since `x % 0` is NaN in
JavaScript. -/

/-- A JavaScript number as it can appear as a selection index. -/
inductive JSNum where
  | int : Int → JSNum
  | nan : JSNum
deriving DecidableEq, Repr

/-- JS addition on index numbers (NaN-propagating). -/
def jsAdd (a b : JSNum) : JSNum :=
  match a, b with
  | .int x, .int y => .int (x + y)
  | _, _ => .nan

/-- JS subtraction on index numbers (NaN-propagating). -/
def jsSub (a b : JSNum) : JSNum :=
  match a, b with
  | .int x, .int y => .int (x - y)
  | _, _ => .nan

/-- JS remainder `a % b`: truncated-division remainder, NaN when the divisor
is 0 or an operand is NaN. -/
def jsMod (a b : JSNum) : JSNum :=
  match a, b with
  | .int x, .int y => if y = 0 then .nan else .int (x.tmod y)
  | _, _ => .nan

/-- JS comparison `a > 0` (false on NaN). -/
def jsGtZero (a : JSNum) : Bool :=
  match a with
  | .int x => decide (0 < x)
  | .nan => false

/-- The keyboard keys distinguished by `handleKeyPress`. -/
inductive Key where
  | escape
  | arrowUp
  | arrowDown
  | enter
  | other
deriving DecidableEq, Repr

/-- The observable effect of one `handleKeyPress` call: `close` is
`props.onClose()`, `select i` is `props.onSelect(i)` from an arrow key, and
`confirm i` is the Enter branch (`handleSelect`, which fires haptics and then
`props.onSelect(i)` as the confirmation of item `i`). -/
inductive PaletteEvent where
  | close
  | select (i : JSNum)
  | confirm (i : JSNum)
deriving DecidableEq, Repr

/-- `handleKeyPress` of `CommandPalette`: returns the event the handler
fires, or `none` when it does nothing (not visible, unknown key, or Enter
with an empty items list). -/
def handleKeyPress (visible : Bool) (key : Key) (itemsLength : Nat)
    (selectedIndex : JSNum) : Option PaletteEvent :=
  if !visible then none
  else
    match key with
    | .escape => some .close
    | .arrowUp =>
        some (.select (if jsGtZero selectedIndex
          then jsSub selectedIndex (.int 1)
          else .int ((itemsLength : Int) - 1)))
    | .arrowDown =>
        some (.select (jsMod (jsAdd selectedIndex (.int 1)) (.int itemsLength)))
    | .enter =>
        if itemsLength > 0 then some (.confirm selectedIndex) else none
    | .other => none

/-- The selection index resulting from an ArrowUp/ArrowDown key press on a
visible palette: the index `handleKeyPress` hands to `props.onSelect`
(which stores it as the new `selectedIndex`); unchanged if no select event
fires. -/
def applyArrow (itemsLength : Nat) (idx : JSNum) (key : Key) : JSNum :=
  match handleKeyPress true key itemsLength idx with
  | some (.select j) => j
  | _ => idx

/-- The selection index after a sequence of arrow-key presses on a fixed
items list. -/
def runArrows (itemsLength : Nat) (idx : JSNum) : List Key → JSNum
  | [] => idx
  | k :: ks => runArrows itemsLength (applyArrow itemsLength idx k) ks

/-- Is `j` an integer index into a list of length `n`? -/
def inRangeIdx (n : Nat) : JSNum → Bool
  | .int i => decide (0 ≤ i) && decide (i < (n : Int))
  | .nan => false

/-! ## Command registry and types (design document, Section 1) -/

/-- `type: 'rpc' | 'message'` of a `SlashCommand`. -/
inductive CmdType where
  | rpc
  | message
deriving DecidableEq, Repr

/-- The `SlashCommand` descriptor.  `customHandler` (an optional function
used only for special UI) is omitted; the optional `requiresSession` flag is
modelled as a `Bool` (absent = `false`, JS falsiness). -/
structure SlashCommand where
  id : JStr
  trigger : JStr
  name : JStr
  description : JStr
  icon : Option JStr
  type : CmdType
  rpcName : Option JStr
  requiresSession : Bool
deriving DecidableEq, Repr

/-- The `/model` entry of the initial registry. -/
def modelCommand : SlashCommand where
  id := js ("model")
  trigger := js ("/model")
  name := js ("Select Model")
  description := js ("Change the AI model")
  icon := some (js ("cpu"))
  type := .rpc
  rpcName := some (js ("setModel"))
  requiresSession := true

/-- `SLASH_COMMANDS`, the initial command registry of the design document. -/
def SLASH_COMMANDS : List SlashCommand := [modelCommand]

/-! ## AgentInput command-detection effect (design document, Section 5) -/

/-- The command-UI state the `AgentInput` detection effect writes:
`setShowCommandPalette`, `setShowAutocomplete`, `setFilteredCommands`. -/
structure CommandUIState where
  showCommandPalette : Bool
  showAutocomplete : Bool
  filteredCommands : List SlashCommand
deriving DecidableEq, Repr

/-- The body of `AgentInput`'s `React.useEffect` on `props.value`: trims the
input, then either shows the full palette (input exactly `/`), filters the
registry by trigger prefix for autocomplete (input starting with `/`), or
hides all command UI. -/
def agentInputDetectEffect (registry : List SlashCommand) (value : JStr) :
    CommandUIState :=
  let trimmed := jsTrim value
  if trimmed = ['/'] then
    { showCommandPalette := true
      showAutocomplete := false
      filteredCommands := registry }
  else if jsStartsWith trimmed ['/'] then
    let matched := registry.filter (fun cmd => jsStartsWith cmd.trigger trimmed)
    { showCommandPalette := false
      showAutocomplete := decide (0 < matched.length)
      filteredCommands := matched }
  else
    { showCommandPalette := false
      showAutocomplete := false
      filteredCommands := [] }

/-! ## Command dispatch (design document, Section 4)

`useCommandExecutor.executeCommand` and the generic `sessionRPC` helper.
A thrown JavaScript value is modelled as `Option JStr`: `some m` is an
`Error` whose `.message` is `m`, `none` is a thrown non-`Error` value.
The opaque socket channel is a function that either returns a response or
throws; each invocation of the channel is recorded in a trace so that
"zero remote calls" is decidable. -/

/-- A thrown JavaScript value, as the `catch` clauses discriminate it. -/
abbrev JsError := Option JStr

/-- The `key → value` parameter mapping passed to an RPC. -/
abbrev ParamMap := List (JStr × JStr)

/-- Response shape of `sessionRPC`: `{ success: boolean; message?: string }`
(the optional generic `result` payload is never inspected and is omitted). -/
structure RPCResult where
  success : Bool
  message : Option JStr
deriving DecidableEq, Repr

/-- One invocation of the socket channel: `(sessionId, method, params)`. -/
abbrev RemoteCall := JStr × JStr × ParamMap

/-- The opaque `apiSocket.sessionRPC` capability: returns a response or
throws. -/
structure ApiSocket where
  call : JStr → JStr → ParamMap → Except JsError RPCResult

/-- JS `a || b` where `a` is an optional string: the empty string is falsy. -/
def jsOrStr (a : Option JStr) (b : JStr) : JStr :=
  match a with
  | some s => if s = [] then b else s
  | none => b

/-- `sessionRPC(sessionId, method, params)` from `sources/sync/ops.ts` of the
design document, with `getApiSyncSocket()` supplied as an argument.  Returns
the response together with the list of socket invocations made.  The whole
body is wrapped in `try/catch`, so a throwing channel is converted into
`{ success: false, message: error.message ?? 'RPC call failed' }`; when no
socket is connected the result is `{ success: false, message: 'Not connected
to session' }` without any remote call. -/
def sessionRPC (getApiSyncSocket : Option ApiSocket)
    (sessionId method : JStr) (params : Option ParamMap) :
    RPCResult × List RemoteCall :=
  match getApiSyncSocket with
  | none =>
      ({ success := false, message := some (js ("Not connected to session")) }, [])
  | some apiSocket =>
      match apiSocket.call sessionId method (params.getD []) with
      | .ok response => (response, [(sessionId, method, params.getD [])])
      | .error e =>
          ({ success := false
             message := some (e.getD (js ("RPC call failed"))) },
           [(sessionId, method, params.getD [])])

/-- The observable effects of one `executeCommand` call: the messages shown
via `Modal.alert('Error', …)` and the socket invocations made. -/
structure ExecTrace where
  alerts : List JStr
  rpcCalls : List RemoteCall
deriving DecidableEq, Repr

/-- `executeCommand(command, params)` from `useCommandExecutor(sessionId)`:
rejects immediately (alert, no call) when `command.requiresSession` holds and
`sessionId` is falsy (the empty string — the caller passes
`props.sessionId || ''`); otherwise, for an `'rpc'` command, awaits
`sessionRPC(sessionId, command.rpcName!, params)` and alerts
`result.message || 'Command failed'` on failure; a `'message'` command does
nothing (its send path is a stub in the source).  The `isExecuting` flag is
UI state and not part of the trace. -/
def executeCommand (getApiSyncSocket : Option ApiSocket) (sessionId : JStr)
    (command : SlashCommand) (params : Option ParamMap) : ExecTrace :=
  if command.requiresSession && sessionId == [] then
    { alerts := [js ("Please start a session first")], rpcCalls := [] }
  else
    match command.type with
    | .rpc =>
        let result := sessionRPC getApiSyncSocket sessionId
          ((command.rpcName).getD []) params
        if result.1.success then
          { alerts := [], rpcCalls := result.2 }
        else
          { alerts := [jsOrStr result.1.message (js ("Command failed"))]
            rpcCalls := result.2 }
    | .message => { alerts := [], rpcCalls := [] }

/-- A socket whose one remote call always throws an `Error` with message
`"timeout"`; used to exercise the transport-failure path on a concrete
input. -/
def throwingSocket : ApiSocket where
  call := fun _ _ _ => .error (some (js ("timeout")))

/-! ## Lemmas about the string model -/

theorem jsStartsWith_iff (l p : JStr) : jsStartsWith l p = true ↔ p <+: l := by
  simp [jsStartsWith, List.isPrefixOf_iff_prefix]

theorem dropTrailingWs_cons_of_nil (c : Char) (cs : JStr)
    (h : dropTrailingWs cs = []) :
    dropTrailingWs (c :: cs) = if isJsWs c then [] else [c] := by
  simp [dropTrailingWs, h]

theorem dropTrailingWs_cons_of_ne (c : Char) (cs : JStr)
    (h : dropTrailingWs cs ≠ []) :
    dropTrailingWs (c :: cs) = c :: dropTrailingWs cs := by
  cases hcs : dropTrailingWs cs with
  | nil => exact absurd hcs h
  | cons r rs => simp [dropTrailingWs, hcs]

theorem dropTrailingWs_prefix_self (l : JStr) : dropTrailingWs l <+: l := by
  induction l with
  | nil => exact ⟨[], rfl⟩
  | cons c cs ih =>
    cases h : dropTrailingWs cs with
    | nil =>
      rw [dropTrailingWs_cons_of_nil c cs h]
      split
      · exact ⟨c :: cs, rfl⟩
      · exact ⟨cs, rfl⟩
    | cons r rs =>
      rw [dropTrailingWs_cons_of_ne c cs (by simp [h])]
      obtain ⟨t, ht⟩ := ih
      exact ⟨t, by rw [List.cons_append, ht]⟩

theorem dropTrailingWs_append (x s : JStr) :
    dropTrailingWs (x ++ s) =
      if dropTrailingWs s = [] then dropTrailingWs x
      else x ++ dropTrailingWs s := by
  induction x with
  | nil =>
    simp only [List.nil_append]
    split
    · next h => rw [h]; rfl
    · rfl
  | cons c x ih =>
    by_cases hs : dropTrailingWs s = []
    · rw [if_pos hs]
      by_cases hx : dropTrailingWs x = []
      · rw [List.cons_append,
          dropTrailingWs_cons_of_nil _ _ (by rw [ih, if_pos hs]; exact hx),
          dropTrailingWs_cons_of_nil _ _ hx]
      · rw [List.cons_append,
          dropTrailingWs_cons_of_ne _ _ (by rw [ih, if_pos hs]; exact hx),
          dropTrailingWs_cons_of_ne _ _ hx, ih, if_pos hs]
    · have hxs : dropTrailingWs (x ++ s) ≠ [] := by
        rw [ih, if_neg hs]
        simp [hs]
      rw [if_neg hs, List.cons_append, dropTrailingWs_cons_of_ne _ _ hxs, ih,
        if_neg hs, List.cons_append]

theorem dropTrailingWs_head (c : Char) (cs : JStr) (hc : isJsWs c = false) :
    ∃ r, dropTrailingWs (c :: cs) = c :: r := by
  by_cases h : dropTrailingWs cs = []
  · exact ⟨[], by rw [dropTrailingWs_cons_of_nil c cs h, if_neg (by simp [hc])]⟩
  · exact ⟨dropTrailingWs cs, dropTrailingWs_cons_of_ne c cs h⟩

theorem jsTrim_of_head (c : Char) (cs : JStr) (hc : isJsWs c = false) :
    jsTrim (c :: cs) = dropTrailingWs (c :: cs) := by
  simp [jsTrim, dropLeadingWs, List.dropWhile_cons, hc]

theorem jsTrim_head (c : Char) (cs : JStr) (hc : isJsWs c = false) :
    ∃ r, jsTrim (c :: cs) = c :: r := by
  rw [jsTrim_of_head c cs hc]
  exact dropTrailingWs_head c cs hc

theorem jsTrim_prefix_mono (c : Char) (x1 y : JStr) (hc : isJsWs c = false)
    (hxy : (c :: x1) <+: y) : jsTrim (c :: x1) <+: jsTrim y := by
  obtain ⟨t, ht⟩ := hxy
  rw [← ht]
  have hy : jsTrim ((c :: x1) ++ t) = dropTrailingWs ((c :: x1) ++ t) := by
    rw [List.cons_append]
    exact jsTrim_of_head c (x1 ++ t) hc
  rw [hy, jsTrim_of_head c x1 hc, dropTrailingWs_append (c :: x1) t]
  split
  · exact ⟨[], List.append_nil _⟩
  · exact (dropTrailingWs_prefix_self (c :: x1)).trans ⟨dropTrailingWs t, rfl⟩

/-! ## Evaluation lemmas for the AgentInput detection effect -/

theorem detect_full (registry : List SlashCommand) (v : JStr)
    (h : jsTrim v = ['/']) :
    agentInputDetectEffect registry v =
      { showCommandPalette := true, showAutocomplete := false,
        filteredCommands := registry } := by
  simp [agentInputDetectEffect, h]

theorem detect_narrow (registry : List SlashCommand) (v : JStr)
    (h1 : jsTrim v ≠ ['/']) (h2 : jsStartsWith (jsTrim v) ['/'] = true) :
    agentInputDetectEffect registry v =
      { showCommandPalette := false
        showAutocomplete :=
          decide (0 < (registry.filter
            (fun cmd => jsStartsWith cmd.trigger (jsTrim v))).length)
        filteredCommands :=
          registry.filter (fun cmd => jsStartsWith cmd.trigger (jsTrim v)) } := by
  simp [agentInputDetectEffect, h1, h2]

theorem detect_hidden (registry : List SlashCommand) (v : JStr)
    (h : jsStartsWith (jsTrim v) ['/'] = false) :
    agentInputDetectEffect registry v =
      { showCommandPalette := false, showAutocomplete := false,
        filteredCommands := [] } := by
  have h1 : jsTrim v ≠ ['/'] := by
    intro hv
    rw [hv] at h
    exact absurd h (by decide)
  simp [agentInputDetectEffect, h1, h]

/-! ## Step lemma for the keyboard selection handler -/

theorem applyArrow_inRange (n : Nat) (idx : JSNum) (key : Key)
    (hn : 0 < n) (h : inRangeIdx n idx = true) :
    inRangeIdx n (applyArrow n idx key) = true := by
  obtain ⟨i, rfl⟩ : ∃ i, idx = JSNum.int i := by
    cases idx with
    | int i => exact ⟨i, rfl⟩
    | nan => simp [inRangeIdx] at h
  have hbounds : 0 ≤ i ∧ i < (n : Int) := by simpa [inRangeIdx] using h
  obtain ⟨h0, hi⟩ := hbounds
  cases key with
  | escape => simpa [applyArrow, handleKeyPress, inRangeIdx] using h
  | other => simpa [applyArrow, handleKeyPress, inRangeIdx] using h
  | enter => simpa [applyArrow, handleKeyPress, hn, inRangeIdx] using h
  | arrowUp =>
    by_cases hgt : 0 < i
    · simp [applyArrow, handleKeyPress, jsGtZero, jsSub, hgt, inRangeIdx]
      omega
    · simp [applyArrow, handleKeyPress, jsGtZero, hgt, inRangeIdx]
      omega
  | arrowDown =>
    have hn0 : (n : Int) ≠ 0 := by omega
    simp [applyArrow, handleKeyPress, jsAdd, jsMod, hn0, inRangeIdx]
    exact ⟨Int.tmod_nonneg _ (by omega), Int.tmod_lt_of_pos _ (by omega)⟩

/-! ## Claims -/

/-- C1 counterexample: the claim "the keyboard ArrowUp/ArrowDown handlers
never produce an out-of-range index" is false on the code.  With the palette
visible, an empty items list, and `selectedIndex = 0`, ArrowUp computes
`items.length - 1 = -1` and fires `onSelect(-1)`, an index that is neither
"undefined" nor within `[0, 0)`. -/
theorem C1_counterexample :
    handleKeyPress true Key.arrowUp 0 (JSNum.int 0) =
      some (PaletteEvent.select (JSNum.int (-1))) ∧
    inRangeIdx 0 (JSNum.int (-1)) = false := by
  decide

/-- C1 (amended): on a fixed non-empty items list, after any sequence of
key presses handled by `handleKeyPress` (each arrow key storing the index it
passes to `onSelect`), a selection index that starts inside `[0, items.length)`
stays inside `[0, items.length)`; the original claim's empty-list case is
false (see the counterexample: ArrowUp on an empty list emits `-1`). -/
theorem C1_selection_index_invariant (n : Nat) (idx : JSNum) (ops : List Key)
    (hn : 0 < n) (h : inRangeIdx n idx = true) :
    inRangeIdx n (runArrows n idx ops) = true := by
  induction ops generalizing idx with
  | nil => simpa [runArrows] using h
  | cons k ks ih =>
    simp only [runArrows]
    exact ih _ (applyArrow_inRange n idx k hn h)

/-- C1 witness: the invariant instantiated on a list of 3 items, starting
index 0, and the key sequence ArrowUp, ArrowDown, ArrowDown, Enter. -/
theorem C1_selection_index_invariant_witness :
    inRangeIdx 3 (runArrows 3 (JSNum.int 0)
      [Key.arrowUp, Key.arrowDown, Key.arrowDown, Key.enter]) = true :=
  C1_selection_index_invariant 3 (JSNum.int 0)
    [Key.arrowUp, Key.arrowDown, Key.arrowDown, Key.enter]
    (by decide) (by decide)

/-- C2 counterexample: the claim "when the candidate list is empty, both
moveUp and moveDown are no-ops" is false on the code.  On the empty list the
ArrowUp handler fires `onSelect(-1)` and the ArrowDown handler fires
`onSelect((0 + 1) % 0) = onSelect(NaN)`; both fire an event (not a no-op)
and both emitted values differ from the current index 0. -/
theorem C2_counterexample :
    handleKeyPress true Key.arrowUp 0 (JSNum.int 0) =
      some (PaletteEvent.select (JSNum.int (-1))) ∧
    handleKeyPress true Key.arrowDown 0 (JSNum.int 0) =
      some (PaletteEvent.select JSNum.nan) ∧
    (JSNum.int (-1) ≠ JSNum.int 0) ∧ (JSNum.nan ≠ JSNum.int 0) := by
  decide

/-- C2 (amended): for every non-empty items list of length `n` and in-range
index `i`, ArrowUp from index 0 selects `n - 1` and otherwise selects
`i - 1`; ArrowDown from index `n - 1` selects 0 and otherwise selects
`i + 1`.  On the empty list the handlers are not no-ops: ArrowUp emits `-1`
and ArrowDown emits NaN. -/
theorem C2_wraparound (n : Nat) (i : Int) (hn : 0 < n) (h0 : 0 ≤ i)
    (hi : i < (n : Int)) :
    (handleKeyPress true Key.arrowUp n (JSNum.int i) =
      some (PaletteEvent.select
        (JSNum.int (if i = 0 then (n : Int) - 1 else i - 1)))) ∧
    (handleKeyPress true Key.arrowDown n (JSNum.int i) =
      some (PaletteEvent.select
        (JSNum.int (if i = (n : Int) - 1 then 0 else i + 1)))) ∧
    handleKeyPress true Key.arrowUp 0 (JSNum.int 0) =
      some (PaletteEvent.select (JSNum.int (-1))) ∧
    handleKeyPress true Key.arrowDown 0 (JSNum.int 0) =
      some (PaletteEvent.select JSNum.nan) := by
  refine ⟨?_, ?_, by decide, by decide⟩
  · by_cases h : i = 0
    · simp [handleKeyPress, jsGtZero, h]
    · have hgt : 0 < i := by omega
      simp [handleKeyPress, jsGtZero, jsSub, hgt, h]
  · have hn0 : (n : Int) ≠ 0 := by omega
    by_cases h : i = (n : Int) - 1
    · have hin : i + 1 = (n : Int) := by omega
      simp only [handleKeyPress, jsAdd, jsMod, Bool.not_true, if_neg hn0,
        if_pos h, Bool.false_eq_true, if_false, hin, Int.tmod_self]
    · have hlt : i + 1 < (n : Int) := by omega
      simp only [handleKeyPress, jsAdd, jsMod, Bool.not_true, if_neg hn0,
        if_neg h, Bool.false_eq_true, if_false,
        Int.tmod_eq_of_lt (by omega) hlt]

/-- C2 witness: with 3 candidates, ArrowUp from index 0 selects 2 and
ArrowDown from index 2 selects 0. -/
theorem C2_wraparound_witness :
    handleKeyPress true Key.arrowUp 3 (JSNum.int 0) =
      some (PaletteEvent.select (JSNum.int 2)) ∧
    handleKeyPress true Key.arrowDown 3 (JSNum.int 2) =
      some (PaletteEvent.select (JSNum.int 0)) :=
  ⟨((C2_wraparound 3 0 (by decide) (by decide) (by decide)).1).trans (by decide),
   ((C2_wraparound 3 2 (by decide) (by decide) (by decide)).2.1).trans (by decide)⟩

/-- C9: with the palette visible and an empty items list, the Enter key does
nothing at all — in particular `handleSelect`/`onSelect` is never invoked —
because the Enter branch is guarded by `items.length > 0`. -/
theorem C9_no_confirm_on_empty (idx : JSNum) :
    handleKeyPress true Key.enter 0 idx = none := by
  simp [handleKeyPress]

/-- C3: `useCommandDetector(x, t).isActive` is true iff `x` with leading and
trailing whitespace stripped equals `t` exactly (case-sensitively, with
internal whitespace untouched — `jsTrim` only removes characters at the two
ends); and for a non-empty trigger the empty input is never active. -/
theorem C3_trigger_detection (x t : JStr) :
    ((useCommandDetector x t).isActive = true ↔ jsTrim x = t) ∧
    (t ≠ [] → (useCommandDetector [] t).isActive = false) := by
  constructor
  · simp [useCommandDetector]
  · intro ht
    have h0 : jsTrim ([] : JStr) = [] := rfl
    simp [useCommandDetector, h0]
    exact ht

/-- C3 witness: `"  /model  "` activates the trigger `"/model"` and the empty
input does not. -/
theorem C3_trigger_detection_witness :
    (useCommandDetector (js ("  /model  ")) (js ("/model"))).isActive = true ∧
    (useCommandDetector [] (js ("/model"))).isActive = false :=
  ⟨((C3_trigger_detection (js ("  /model  ")) (js ("/model"))).1).mpr (by decide),
   (C3_trigger_detection (js ("  /model  ")) (js ("/model"))).2 (by decide)⟩

/-- C8: the `clear` operation returned by `useCommandDetector` returns the
empty string for every input text and trigger. -/
theorem C8_clear_returns_empty (x t : JStr) :
    (useCommandDetector x t).clear () = [] := rfl

/-- C10: `useCommandDetector` does not enforce a non-empty trigger — with
the empty trigger, every whitespace-only input (the empty string included)
yields `isActive = true`. -/
theorem C10_empty_trigger_whitespace_active (x : JStr)
    (h : ∀ c ∈ x, isJsWs c = true) :
    (useCommandDetector x []).isActive = true := by
  have hx : dropLeadingWs x = [] := by
    rw [dropLeadingWs, List.dropWhile_eq_nil_iff]
    intro c hc
    exact h c hc
  have htrim : jsTrim x = [] := by rw [jsTrim, hx]; rfl
  simp [useCommandDetector, htrim]

/-- C10 witness: with the empty trigger, the inputs `"  "` and `""` are both
active. -/
theorem C10_empty_trigger_whitespace_active_witness :
    (useCommandDetector (js ("  ")) []).isActive = true ∧
    (useCommandDetector [] []).isActive = true :=
  ⟨C10_empty_trigger_whitespace_active (js ("  ")) (by decide),
   C10_empty_trigger_whitespace_active [] (by decide)⟩

/-- C6: the `AgentInput` detection effect has three modes, decided on the
trimmed input.  Exactly `/`: the candidate list is the entire registry in
declared order and the palette is shown.  Starting with `/` and more: the
candidate list holds exactly the descriptors whose trigger starts with the
trimmed input, in registry order (a sublist of the registry).  Not starting
with `/` (including empty or whitespace-only input): the candidate list is
empty and all command UI is hidden. -/
theorem C6_filter_modes (registry : List SlashCommand) (value : JStr) :
    (jsTrim value = ['/'] →
      agentInputDetectEffect registry value =
        { showCommandPalette := true, showAutocomplete := false,
          filteredCommands := registry }) ∧
    (jsTrim value ≠ ['/'] → jsStartsWith (jsTrim value) ['/'] = true →
      (agentInputDetectEffect registry value).showCommandPalette = false ∧
      List.Sublist (agentInputDetectEffect registry value).filteredCommands
        registry ∧
      ∀ cmd, cmd ∈ (agentInputDetectEffect registry value).filteredCommands ↔
        cmd ∈ registry ∧ jsStartsWith cmd.trigger (jsTrim value) = true) ∧
    (jsStartsWith (jsTrim value) ['/'] = false →
      agentInputDetectEffect registry value =
        { showCommandPalette := false, showAutocomplete := false,
          filteredCommands := [] }) := by
  refine ⟨fun h => detect_full registry value h, fun h1 h2 => ?_,
    fun h => detect_hidden registry value h⟩
  rw [detect_narrow registry value h1 h2]
  refine ⟨rfl, List.filter_sublist _, fun cmd => ?_⟩
  simp [List.mem_filter]

/-- C6 witness: on the initial registry, input `/` shows the full registry,
input `/mo` keeps the `/model` descriptor as a candidate, and input `x`
hides all command UI with an empty candidate list. -/
theorem C6_filter_modes_witness :
    agentInputDetectEffect SLASH_COMMANDS (js ("/")) =
      { showCommandPalette := true, showAutocomplete := false,
        filteredCommands := SLASH_COMMANDS } ∧
    modelCommand ∈
      (agentInputDetectEffect SLASH_COMMANDS (js ("/mo"))).filteredCommands ∧
    agentInputDetectEffect SLASH_COMMANDS (js ("x")) =
      { showCommandPalette := false, showAutocomplete := false,
        filteredCommands := [] } :=
  ⟨(C6_filter_modes SLASH_COMMANDS (js ("/"))).1 (by decide),
   ((((C6_filter_modes SLASH_COMMANDS (js ("/mo"))).2.1 (by decide)
      (by decide)).2.2) modelCommand).mpr ⟨by decide, by decide⟩,
   (C6_filter_modes SLASH_COMMANDS (js ("x"))).2.2 (by decide)⟩

/-- C7: the narrowing filter is monotonic — for inputs `x` and `y` both
starting with `/`, if `x` is a prefix of `y` then every candidate the
detection effect produces for `y` is also a candidate for `x`. -/
theorem C7_narrowing_monotone (registry : List SlashCommand) (x y : JStr)
    (hx : jsStartsWith x ['/'] = true) (hxy : x <+: y) :
    ∀ cmd ∈ (agentInputDetectEffect registry y).filteredCommands,
      cmd ∈ (agentInputDetectEffect registry x).filteredCommands := by
  obtain ⟨x1, rfl⟩ : ∃ x1, x = '/' :: x1 := by
    obtain ⟨t, ht⟩ := (jsStartsWith_iff x ['/']).mp hx
    exact ⟨t, ht.symm⟩
  have hslash : isJsWs '/' = false := by decide
  obtain ⟨rx, hrx⟩ := jsTrim_head '/' x1 hslash
  have htpre : jsTrim ('/' :: x1) <+: jsTrim y :=
    jsTrim_prefix_mono '/' x1 y hslash hxy
  intro cmd hcmd
  by_cases hyfull : jsTrim y = ['/']
  · have hxfull : jsTrim ('/' :: x1) = ['/'] := by
      rw [hyfull] at htpre
      rw [hrx] at htpre
      obtain ⟨t, ht⟩ := htpre
      simp only [List.cons_append, List.cons.injEq] at ht
      have := List.append_eq_nil.mp ht.2
      rw [hrx, this.1]
    rw [detect_full registry _ hxfull]
    rw [detect_full registry y hyfull] at hcmd
    exact hcmd
  · have hystart : jsStartsWith (jsTrim y) ['/'] = true := by
      rw [jsStartsWith_iff]
      have h1 : (['/'] : JStr) <+: jsTrim ('/' :: x1) := by
        rw [hrx]; exact ⟨rx, rfl⟩
      exact h1.trans htpre
    rw [detect_narrow registry y hyfull hystart] at hcmd
    simp only [List.mem_filter] at hcmd
    obtain ⟨hreg, hpre⟩ := hcmd
    have hpre2 : jsStartsWith cmd.trigger (jsTrim ('/' :: x1)) = true := by
      rw [jsStartsWith_iff] at hpre ⊢
      exact htpre.trans hpre
    by_cases hxfull : jsTrim ('/' :: x1) = ['/']
    · rw [detect_full registry _ hxfull]
      exact hreg
    · have hxstart : jsStartsWith (jsTrim ('/' :: x1)) ['/'] = true := by
        rw [jsStartsWith_iff, hrx]
        exact ⟨rx, rfl⟩
      rw [detect_narrow registry _ hxfull hxstart]
      simp only [List.mem_filter]
      exact ⟨hreg, hpre2⟩

/-- C7 witness: on the initial registry with `x = "/m"` and `y = "/mo"`, the
`/model` descriptor, a candidate for `y`, is also a candidate for `x`. -/
theorem C7_narrowing_monotone_witness :
    modelCommand ∈
      (agentInputDetectEffect SLASH_COMMANDS (js ("/m"))).filteredCommands :=
  C7_narrowing_monotone SLASH_COMMANDS (js ("/m")) (js ("/mo"))
    (by decide) (by decide) modelCommand (by decide)

/-- C4: for every command with `requiresSession` set, dispatching with an
absent session — the dispatcher receives a session only as its id string, and
the caller passes the empty string when there is no live session
(`props.sessionId || ''`) — produces exactly the user-facing error alert and
makes zero remote calls, for every socket state. -/
theorem C4_dispatch_precondition (socket : Option ApiSocket)
    (sessionId : JStr) (command : SlashCommand) (params : Option ParamMap)
    (hreq : command.requiresSession = true) (habsent : sessionId = []) :
    executeCommand socket sessionId command params =
      { alerts := [js ("Please start a session first")], rpcCalls := [] } := by
  simp [executeCommand, hreq, habsent]

/-- C4 witness: dispatching `/model` (which requires a session) with the
empty session id alerts and makes no remote call. -/
theorem C4_dispatch_precondition_witness :
    executeCommand (some throwingSocket) [] modelCommand none =
      { alerts := [js ("Please start a session first")], rpcCalls := [] } :=
  C4_dispatch_precondition (some throwingSocket) [] modelCommand none
    (by decide) rfl

/-- C5: a transport-level failure — the socket channel throwing `e` — is
caught inside the dispatcher and converted into a failure result carrying a
message (`e.message`, or `'RPC call failed'` for a non-`Error` value), and
`executeCommand` ends normally, showing exactly one error alert; nothing
propagates past the dispatcher (`sessionRPC` and `executeCommand` are total
on every channel outcome by the case analysis below). -/
theorem C5_transport_containment (socket : ApiSocket) (sessionId : JStr)
    (command : SlashCommand) (params : Option ParamMap) (e : JsError)
    (hguard : ¬(command.requiresSession = true ∧ sessionId = []))
    (htype : command.type = CmdType.rpc)
    (hthrow : socket.call sessionId ((command.rpcName).getD [])
      (params.getD []) = Except.error e) :
    (sessionRPC (some socket) sessionId ((command.rpcName).getD [])
        params).1.success = false ∧
    (sessionRPC (some socket) sessionId ((command.rpcName).getD [])
        params).1.message = some (e.getD (js ("RPC call failed"))) ∧
    (executeCommand (some socket) sessionId command params).alerts =
      [jsOrStr (some (e.getD (js ("RPC call failed")))) (js ("Command failed"))] ∧
    (executeCommand (some socket) sessionId command params).rpcCalls =
      [(sessionId, (command.rpcName).getD [], params.getD [])] := by
  have hrpc : sessionRPC (some socket) sessionId ((command.rpcName).getD [])
      params =
      ({ success := false, message := some (e.getD (js ("RPC call failed"))) },
       [(sessionId, (command.rpcName).getD [], params.getD [])]) := by
    simp [sessionRPC, hthrow]
  have hguard2 : (command.requiresSession && sessionId == []) = false := by
    cases hr : command.requiresSession with
    | false => simp
    | true =>
      have h2 : sessionId ≠ [] := fun hnil => hguard ⟨hr, hnil⟩
      simp [h2]
  refine ⟨by rw [hrpc], by rw [hrpc], ?_, ?_⟩ <;>
    simp [executeCommand, hguard2, htype, hrpc, hguard]

/-- C5 witness: a socket that throws an `Error` with message `"timeout"`
yields a failure result and a single `"timeout"` alert, with the failure
contained in the dispatcher. -/
theorem C5_transport_containment_witness :
    (sessionRPC (some throwingSocket) (js ("s1"))
        ((modelCommand.rpcName).getD []) none).1.success = false ∧
    (executeCommand (some throwingSocket) (js ("s1")) modelCommand none).alerts =
      [js ("timeout")] := by
  have h := C5_transport_containment throwingSocket (js ("s1")) modelCommand
    none (some (js ("timeout"))) (by decide) rfl rfl
  exact ⟨h.1, h.2.2.1.trans (by decide)⟩

end MyHappy
